import Mathlib

set_option maxRecDepth 8192

/-
  Shallow embedding of the ThingSpeak Mbed client (src/ThingSpeak.h).

  The mutable instance state of the C++ class ThingSpeak is modelled as the
  structure TSState; each member function becomes a Lean function that takes
  the state (and, for operations that talk to the network, the transport's
  mocked answer, a pair of HTTP status code and body text) and returns the
  result together with the successor state.

  Modelling conventions:
  - C++ std::string values are Lean String values; std::string::length()
    counts bytes, which for UTF-8 content is byteLen below.
  - The float members nextWriteLatitude / nextWriteLongitude /
    nextWriteElevation are omitted from the state: the code that would
    serialize them is commented out in the source (lines 679-705, 1302-1315),
    they never influence any result or any other member, and resetWriteFields
    only ever re-establishes their initial NAN value.
  - The transport (HttpRequest / HttpResponse of mbed http_request.h) is an
    external collaborator; a write or read operation receives the pair
    (status code, body text) the transport would deliver, and the outcome
    records the exact request body (for POST) or URL (for GET) handed to the
    transport, or none when control never reached request->send.
  - std::stoi may throw: std::invalid_argument when the body holds no
    digits, std::out_of_range when the value is outside the 32-bit int
    range.  stoi below returns none in both cases; the operation's result
    field is then none as well, and its state is whatever had been mutated
    before the stoi call, since the uncaught exception propagates out of
    the C++ function and skips everything after that call.
-/

/-- Byte length of a string: models std::string::length() on the UTF-8
encoded C++ strings used throughout the library. -/
def byteLen (s : String) : Nat :=
  (s.data.map Char.utf8Size).sum

/-- Status code OK_SUCCESS (ThingSpeak.h line 49). -/
def OK_SUCCESS : Int := 200

/-- Status code ERR_OUT_OF_RANGE (line 52). -/
def ERR_OUT_OF_RANGE : Int := -101

/-- Status code ERR_INVALID_FIELD_NUM (line 53). -/
def ERR_INVALID_FIELD_NUM : Int := -201

/-- Status code ERR_SETFIELD_NOT_CALLED (line 54). -/
def ERR_SETFIELD_NOT_CALLED : Int := -210

/-- Status code ERR_NOT_INSERTED (line 59). -/
def ERR_NOT_INSERTED : Int := -401

/-- FIELDNUM_MIN (line 43). -/
def FIELDNUM_MIN : Nat := 1

/-- FIELDNUM_MAX (line 44). -/
def FIELDNUM_MAX : Nat := 8

/-- FIELDLENGTH_MAX (line 45). -/
def FIELDLENGTH_MAX : Nat := 255

/-- The mutable members of the C++ class ThingSpeak (lines 1397-1407);
nextWriteField is the string array nextWriteField[8], kept as a list whose
length is 8 in every reachable state (theorems carry this as a hypothesis).
The float members and the network handle are omitted, see the header
comment. -/
structure TSState where
  nextWriteField : List String
  nextWriteStatus : String
  nextWriteTwitter : String
  nextWriteTweet : String
  nextWriteCreatedAt : String
  lastReadStatus : Int
deriving DecidableEq

/-- resetWriteFields (lines 1384-1395): every staged string becomes empty;
lastReadStatus is untouched (the floats, omitted here, are set to NAN). -/
def resetWriteFields (s : TSState) : TSState :=
  { s with
    nextWriteField := List.replicate 8 ""
    nextWriteStatus := ""
    nextWriteTwitter := ""
    nextWriteTweet := ""
    nextWriteCreatedAt := "" }

/-- setField(unsigned int field, string value) (lines 316-325).
Returns the status code together with the successor state. -/
def setField (s : TSState) (field : Nat) (value : String) : Int × TSState :=
  if field < FIELDNUM_MIN ∨ field > FIELDNUM_MAX then
    (ERR_INVALID_FIELD_NUM, s)
  else if byteLen value > FIELDLENGTH_MAX then
    (ERR_OUT_OF_RANGE, s)
  else
    (OK_SUCCESS, { s with nextWriteField := s.nextWriteField.set (field - 1) value })

/-- The field loop of getWriteFieldsContentLength (lines 1288-1300), with the
running index iField threaded through; the branch on iField > 9 (and the
unreachable iField > 99 after it) is the dead future-proofing branch of the
source, kept as written. -/
def fieldsLenLoop : List String → Nat → Nat → Nat
  | [], _, contentLen => contentLen
  | v :: vs, iField, contentLen =>
    fieldsLenLoop vs (iField + 1)
      (if byteLen v > 0 then
        let contentLen := contentLen + 8 + byteLen v
        if iField > 9 then contentLen + 1
        else if iField > 99 then contentLen + 2
        else contentLen
      else contentLen)

/-- getWriteFieldsContentLength (lines 1284-1341); the commented-out
latitude/longitude/elevation block (lines 1302-1315) is omitted exactly as
the source omits it.  The C++ result is a non-negative int, modelled as
Nat. -/
def getWriteFieldsContentLength (s : TSState) : Nat :=
  let contentLen := fieldsLenLoop s.nextWriteField 0 0
  let contentLen :=
    if byteLen s.nextWriteStatus > 0 then contentLen + 8 + byteLen s.nextWriteStatus
    else contentLen
  let contentLen :=
    if byteLen s.nextWriteTwitter > 0 then contentLen + 9 + byteLen s.nextWriteTwitter
    else contentLen
  let contentLen :=
    if byteLen s.nextWriteTweet > 0 then contentLen + 7 + byteLen s.nextWriteTweet
    else contentLen
  let contentLen :=
    if byteLen s.nextWriteCreatedAt > 0 then contentLen + 12 + byteLen s.nextWriteCreatedAt
    else contentLen
  if contentLen = 0 then 0 else contentLen + 13

/-- One body-building step of writeFields: the accumulator is the body built
so far paired with the fFirstItem flag; emits the separator when a term was
already emitted, then the term (lines 669-675 and the analogous metadata
blocks). -/
def emit (acc : String × Bool) (t : String) : String × Bool :=
  ((if acc.2 then acc.1 else acc.1 ++ "&") ++ t, false)

/-- A conditional body-building step: emits prefix ++ value when the staged
value is non-empty (length() > 0), otherwise leaves the accumulator
unchanged. -/
def emitIf (acc : String × Bool) (pre v : String) : String × Bool :=
  if byteLen v > 0 then emit acc (pre ++ v) else acc

/-- The field loop of writeFields (lines 667-677): for each staged non-empty
field value, append [&]field(iField+1)=value. -/
def encodeFieldsLoop : List String → Nat → (String × Bool) → String × Bool
  | [], _, acc => acc
  | v :: vs, iField, acc =>
    encodeFieldsLoop vs (iField + 1)
      (emitIf acc ("field" ++ toString (iField + 1) ++ "=") v)

/-- The POST body writeFields builds from the staged state (lines 665-739):
fields in index order, then status, twitter, tweet, created_at, then the
unconditional "&headers=false". -/
def writeFieldsBody (s : TSState) : String :=
  let acc := encodeFieldsLoop s.nextWriteField 0 ("", true)
  let acc := emitIf acc "status=" s.nextWriteStatus
  let acc := emitIf acc "twitter=" s.nextWriteTwitter
  let acc := emitIf acc "tweet=" s.nextWriteTweet
  let acc := emitIf acc "created_at=" s.nextWriteCreatedAt
  acc.1 ++ "&headers=false"

/-- Default-locale isspace, as skipped by std::stoi. -/
def isSpaceChar (c : Char) : Bool :=
  c = ' ' || c = '\t' || c = '\n' || c = '\x0b' || c = '\x0c' || c = '\r'

/-- Value of a list of decimal digit characters. -/
def digitsToNat (ds : List Char) : Nat :=
  ds.foldl (fun a c => a * 10 + (c.toNat - 48)) 0

/-- Model of std::stoi with base 10: skip leading whitespace, an optional
sign, then at least one decimal digit (further characters are ignored).
none models an exception the program does not catch: std::invalid_argument
when no digit is found, and std::out_of_range when the converted value does
not fit in int, whose range on the 32-bit mbed targets is
[-2147483648, 2147483647]. -/
def stoi (s : String) : Option Int :=
  let parseFrom := fun (sign : Int) (rest : List Char) =>
    let ds := rest.takeWhile Char.isDigit
    if ds.isEmpty then (none : Option Int)
    else
      let v := sign * (digitsToNat ds : Int)
      if v < -2147483648 ∨ v > 2147483647 then none else some v
  match s.data.dropWhile isSpaceChar with
  | '-' :: rest => parseFrom (-1) rest
  | '+' :: rest => parseFrom 1 rest
  | rest => parseFrom 1 rest

/-- Outcome of a write operation: the returned status code (none models an
uncaught std::stoi exception), the successor state, and the POST body handed
to the transport (none when no request was made). -/
structure WriteOutcome where
  result : Option Int
  state : TSState
  sent : Option String
deriving DecidableEq

/-- writeFields(unsigned long channelNumber, const char * writeAPIKey)
(lines 641-784), with the transport's answer supplied as resp.  The staged
buffer is consumed: resetWriteFields runs at line 741 before the request is
sent, and again at line 781 on the 200 path.  channelNumber and writeAPIKey
only shape the URL and headers, which the outcome does not record. -/
def writeFields (s : TSState) (channelNumber : Nat) (writeAPIKey : String)
    (resp : Int × String) : WriteOutcome :=
  let contentLen := getWriteFieldsContentLength s
  if contentLen = 0 then
    { result := some ERR_SETFIELD_NOT_CALLED, state := s, sent := none }
  else
    let body := writeFieldsBody s
    let s1 := resetWriteFields s
    let status := resp.1
    if status ≠ OK_SUCCESS then
      { result := some status, state := s1, sent := some body }
    else
      match stoi resp.2 with
      | none => { result := none, state := s1, sent := some body }
      | some entryID =>
        { result := some (if entryID = 0 then ERR_NOT_INSERTED else status),
          state := resetWriteFields s1, sent := some body }

/-- writeRaw(unsigned long channelNumber, string postMessage, const char *
writeAPIKey) (lines 846-900).  Note the asymmetry faithfully kept from the
source: on a non-200 status the function returns at line 880 without
touching the staged buffer, while on the 200 path resetWriteFields runs at
line 897 (after stoi, so an stoi exception also skips it). -/
def writeRaw (s : TSState) (channelNumber : Nat) (postMessage : String)
    (writeAPIKey : String) (resp : Int × String) : WriteOutcome :=
  let body := postMessage ++ "&headers=false"
  let status := resp.1
  if status ≠ OK_SUCCESS then
    { result := some status, state := s, sent := some body }
  else
    match stoi resp.2 with
    | none => { result := none, state := s, sent := some body }
    | some entryID =>
      { result := some (if entryID = 0 then ERR_NOT_INSERTED else status),
        state := resetWriteFields s, sent := some body }

/-- Outcome of a read operation: the returned text, the successor state, and
the GET URL handed to the transport (none when no request was made). -/
structure ReadOutcome where
  ret : String
  state : TSState
  request : Option String
deriving DecidableEq

/-- readRaw(unsigned long channelNumber, string URLSuffix, const char *
readAPIKey) (lines 1198-1251): builds the URL, performs the GET, stores the
transport's status code into lastReadStatus, and returns the body text only
when that status is 200, the empty string otherwise.  readAPIKey only adds a
header. -/
def readRaw (s : TSState) (channelNumber : Nat) (URLSuffix : String)
    (readAPIKey : Option String) (resp : Int × String) : ReadOutcome :=
  let URL := "http://api.thingspeak.com/channels/" ++ toString channelNumber ++ URLSuffix
  let s1 := { s with lastReadStatus := resp.1 }
  if resp.1 ≠ OK_SUCCESS then
    { ret := "", state := s1, request := some URL }
  else
    { ret := resp.2, state := s1, request := some URL }

/-- readStringField(unsigned long channelNumber, unsigned int field, const
char * readAPIKey) (lines 918-931): an out-of-range field number sets
lastReadStatus to ERR_INVALID_FIELD_NUM and returns "" before any request;
otherwise delegates to readRaw with the /fields/{field}/last suffix. -/
def readStringField (s : TSState) (channelNumber : Nat) (field : Nat)
    (readAPIKey : Option String) (resp : Int × String) : ReadOutcome :=
  if field < FIELDNUM_MIN ∨ field > FIELDNUM_MAX then
    { ret := "", state := { s with lastReadStatus := ERR_INVALID_FIELD_NUM },
      request := none }
  else
    readRaw s channelNumber ("/fields/" ++ toString field ++ "/last") readAPIKey resp

/-- getLastReadStatus (lines 1277-1279). -/
def getLastReadStatus (s : TSState) : Int :=
  s.lastReadStatus

/-- Boolean prefix test on character lists: listPre p l holds when p is a
prefix of l. -/
def listPre : List Char → List Char → Bool
  | [], _ => true
  | _ :: _, [] => false
  | c :: cs, d :: ds => (c == d) && listPre cs ds

/-- Model of std::string::find: index of the first occurrence of needle in
hay, none when there is none (std::string::npos).  Positions count
characters where the C++ counts bytes; on UTF-8 text the two agree about
which substring is found. -/
def findSub : List Char → List Char → Option Nat
  | [], needle => if listPre needle [] then some 0 else none
  | c :: t, needle =>
    if listPre needle (c :: t) then some 0
    else (findSub t needle).map (fun i => i + 1)

/-- getJSONValueByKey(string textToSearch, string key) (lines 1343-1369):
look for the literal pattern "key":" and return the text up to the next
double quote; empty string when the text is empty, the pattern is absent, or
no closing quote follows.  erase(toPosition) followed by
substr(fromPosition) is the slice [fromPosition, toPosition). -/
def getJSONValueByKey (textToSearch key : String) : String :=
  if textToSearch.data.length = 0 then ""
  else
    let searchPhrase := "\"" ++ key ++ "\":\""
    match findSub textToSearch.data searchPhrase.data with
    | none => ""
    | some pos =>
      let fromPosition := pos + searchPhrase.data.length
      match findSub (textToSearch.data.drop fromPosition) ['\"'] with
      | none => ""
      | some d =>
        let toPosition := fromPosition + d
        String.mk ((textToSearch.data.take toPosition).drop fromPosition)

/-
  Spec-side characterization of the encoder (spec sections 4.1 encode() and
  computeContentLength()): the body is the list of staged terms, fields in
  ascending index order followed by status, twitter, tweet, created_at,
  joined by "&" with no separator before the first term, then the
  unconditional "&headers=false".
-/

/-- The term pre ++ v, staged only when the value is non-empty. -/
def optTerm (pre v : String) : List String :=
  if byteLen v > 0 then [pre ++ v] else []

/-- The field terms field(i+1)=v for staged non-empty values, in ascending
index order, starting from index i. -/
def fieldTermsFrom : List String → Nat → List String
  | [], _ => []
  | v :: vs, i => optTerm ("field" ++ toString (i + 1) ++ "=") v ++ fieldTermsFrom vs (i + 1)

/-- All terms the encoder emits for a staged state, in the fixed order the
spec describes. -/
def writeTerms (s : TSState) : List String :=
  fieldTermsFrom s.nextWriteField 0
    ++ optTerm "status=" s.nextWriteStatus
    ++ optTerm "twitter=" s.nextWriteTwitter
    ++ optTerm "tweet=" s.nextWriteTweet
    ++ optTerm "created_at=" s.nextWriteCreatedAt

/-- Each term of the tail of the body preceded by its "&" separator. -/
def ampTail : List String → String
  | [] => ""
  | t :: ts => "&" ++ t ++ ampTail ts

/-- Terms joined by "&", no separator before the very first term. -/
def joinAmp : List String → String
  | [] => ""
  | t :: ts => t ++ ampTail ts

/-- Sum over the terms of one separator byte plus the term's byte length. -/
def termsLen : List String → Nat
  | [] => 0
  | t :: ts => 1 + byteLen t + termsLen ts

/-- Run of emit steps over a list of terms. -/
def encList : List String → (String × Bool) → String × Bool
  | [], acc => acc
  | t :: ts, acc => encList ts (emit acc t)

theorem byteLen_append (a b : String) : byteLen (a ++ b) = byteLen a + byteLen b := by
  simp [byteLen, String.data_append]

theorem byteLen_eq_zero_iff (s : String) : byteLen s = 0 ↔ s = "" := by
  constructor
  · intro h
    cases s with
    | mk data =>
      cases data with
      | nil => rfl
      | cons c cs =>
        exfalso
        have hpos := Char.utf8Size_pos c
        simp only [byteLen, List.map_cons, List.sum_cons] at h
        omega
  · intro h
    subst h
    rfl

theorem byteLen_pos_iff (s : String) : byteLen s > 0 ↔ s ≠ "" := by
  constructor
  · intro h he
    subst he
    exact absurd h (by decide)
  · intro h
    rcases Nat.eq_zero_or_pos (byteLen s) with h0 | hpos
    · exact absurd ((byteLen_eq_zero_iff s).1 h0) h
    · exact hpos

theorem termsLen_append (xs ys : List String) :
    termsLen (xs ++ ys) = termsLen xs + termsLen ys := by
  induction xs with
  | nil => simp [termsLen]
  | cons t ts ih => simp [termsLen, ih]; omega

theorem encList_append (xs ys : List String) (acc : String × Bool) :
    encList (xs ++ ys) acc = encList ys (encList xs acc) := by
  induction xs generalizing acc with
  | nil => rfl
  | cons t ts ih => simp [encList, ih]

theorem emitIf_eq_encList (acc : String × Bool) (pre v : String) :
    emitIf acc pre v = encList (optTerm pre v) acc := by
  by_cases hv : byteLen v > 0 <;> simp [emitIf, optTerm, encList, hv]

theorem encodeFieldsLoop_eq_encList (vs : List String) (i : Nat) (acc : String × Bool) :
    encodeFieldsLoop vs i acc = encList (fieldTermsFrom vs i) acc := by
  induction vs generalizing i acc with
  | nil => rfl
  | cons v vs ih =>
    simp [encodeFieldsLoop, fieldTermsFrom, encList_append, emitIf_eq_encList, ih]

theorem encList_false (ts : List String) (b : String) :
    encList ts (b, false) = (b ++ ampTail ts, false) := by
  induction ts generalizing b with
  | nil => simp [encList, ampTail]
  | cons t ts ih => simp [encList, emit, ampTail, ih, String.append_assoc]

theorem encList_true_fst (ts : List String) :
    (encList ts ("", true)).1 = joinAmp ts := by
  cases ts with
  | nil => rfl
  | cons t ts => simp [encList, emit, joinAmp, encList_false, String.empty_append]

theorem writeFieldsBody_eq_terms (s : TSState) :
    writeFieldsBody s = joinAmp (writeTerms s) ++ "&headers=false" := by
  rw [show writeFieldsBody s =
      (emitIf (emitIf (emitIf (emitIf (encodeFieldsLoop s.nextWriteField 0 ("", true))
            "status=" s.nextWriteStatus) "twitter=" s.nextWriteTwitter)
          "tweet=" s.nextWriteTweet) "created_at=" s.nextWriteCreatedAt).1
        ++ "&headers=false" from rfl]
  rw [encodeFieldsLoop_eq_encList, emitIf_eq_encList, emitIf_eq_encList,
    emitIf_eq_encList, emitIf_eq_encList, ← encList_append, ← encList_append,
    ← encList_append, ← encList_append, encList_true_fst]
  simp only [writeTerms, List.append_assoc]

theorem byteLen_ampTail (ts : List String) : byteLen (ampTail ts) = termsLen ts := by
  induction ts with
  | nil => rfl
  | cons t ts ih =>
    have h1 : byteLen "&" = 1 := by decide
    simp [ampTail, termsLen, byteLen_append, ih, h1]
    try omega

theorem byteLen_joinAmp (t : String) (ts : List String) :
    byteLen (joinAmp (t :: ts)) + 1 = termsLen (t :: ts) := by
  simp [joinAmp, termsLen, byteLen_append, byteLen_ampTail]
  omega

theorem fieldsLenLoop_eq (vs : List String) (i acc : Nat) (h : i + vs.length ≤ 8) :
    fieldsLenLoop vs i acc = acc + termsLen (fieldTermsFrom vs i) := by
  induction vs generalizing i acc with
  | nil => simp [fieldsLenLoop, fieldTermsFrom, termsLen]
  | cons v vs ih =>
    have hlen : i + vs.length + 1 ≤ 8 := by
      simp only [List.length_cons] at h
      omega
    have hi : i < 8 := by omega
    have hpre : byteLen ("field" ++ toString (i + 1) ++ "=") = 7 := by
      interval_cases i <;> decide
    by_cases hv : byteLen v > 0
    · simp only [fieldsLenLoop, if_pos hv, show ¬i > 9 by omega, if_false,
        show ¬i > 99 by omega, fieldTermsFrom, optTerm, if_pos hv]
      rw [ih (i + 1) _ (by omega)]
      rw [termsLen_append]
      simp only [termsLen, byteLen_append, hpre]
      omega
    · simp only [fieldsLenLoop, if_neg hv, fieldTermsFrom, optTerm, if_neg hv,
        List.nil_append]
      exact ih (i + 1) acc (by omega)

theorem contentLength_eq_termsLen (s : TSState) (h8 : s.nextWriteField.length = 8) :
    getWriteFieldsContentLength s =
      if termsLen (writeTerms s) = 0 then 0 else termsLen (writeTerms s) + 13 := by
  have hA : fieldsLenLoop s.nextWriteField 0 0 =
      termsLen (fieldTermsFrom s.nextWriteField 0) := by
    rw [fieldsLenLoop_eq _ _ _ (by omega)]
    omega
  have c1 : byteLen "status=" = 7 := by decide
  have c2 : byteLen "twitter=" = 8 := by decide
  have c3 : byteLen "tweet=" = 6 := by decide
  have c4 : byteLen "created_at=" = 11 := by decide
  unfold getWriteFieldsContentLength
  rw [hA]
  by_cases h1 : byteLen s.nextWriteStatus > 0 <;>
    by_cases h2 : byteLen s.nextWriteTwitter > 0 <;>
      by_cases h3 : byteLen s.nextWriteTweet > 0 <;>
        by_cases h4 : byteLen s.nextWriteCreatedAt > 0 <;>
          · simp only [writeTerms, termsLen_append, optTerm, h1, h2, h3, h4, if_true,
              if_false, termsLen, byteLen_append, c1, c2, c3, c4, List.nil_append,
              Nat.add_zero, Nat.zero_add, ite_true, ite_false]
            try split <;> split <;> omega

theorem fieldTermsFrom_ne_nil (vs : List String) (i : Nat)
    (h : ∃ v ∈ vs, v ≠ "") : fieldTermsFrom vs i ≠ [] := by
  induction vs generalizing i with
  | nil => simp at h
  | cons v vs ih =>
    rcases h with ⟨w, hw, hne⟩
    rcases List.mem_cons.1 hw with rfl | hw
    · have hpos : byteLen w > 0 := (byteLen_pos_iff w).2 hne
      simp [fieldTermsFrom, optTerm, hpos]
    · have hr := ih (i + 1) ⟨w, hw, hne⟩
      simp only [fieldTermsFrom, ne_eq, List.append_eq_nil, not_and]
      intro _ h2
      exact hr h2

theorem writeTerms_ne_nil (s : TSState)
    (hstaged : (∃ v ∈ s.nextWriteField, v ≠ "") ∨ s.nextWriteStatus ≠ "" ∨
      s.nextWriteTwitter ≠ "" ∨ s.nextWriteTweet ≠ "" ∨ s.nextWriteCreatedAt ≠ "") :
    writeTerms s ≠ [] := by
  intro hnil
  rw [writeTerms] at hnil
  obtain ⟨h4, hE⟩ := List.append_eq_nil.1 hnil
  obtain ⟨h3, hD⟩ := List.append_eq_nil.1 h4
  obtain ⟨h2, hC⟩ := List.append_eq_nil.1 h3
  obtain ⟨hA, hB⟩ := List.append_eq_nil.1 h2
  rcases hstaged with h | h | h | h | h
  · exact fieldTermsFrom_ne_nil _ _ h hA
  · rw [optTerm, if_pos ((byteLen_pos_iff _).2 h)] at hB
    exact List.cons_ne_nil _ _ hB
  · rw [optTerm, if_pos ((byteLen_pos_iff _).2 h)] at hC
    exact List.cons_ne_nil _ _ hC
  · rw [optTerm, if_pos ((byteLen_pos_iff _).2 h)] at hD
    exact List.cons_ne_nil _ _ hD
  · rw [optTerm, if_pos ((byteLen_pos_iff _).2 h)] at hE
    exact List.cons_ne_nil _ _ hE

theorem fieldsLenLoop_empty (vs : List String) (i acc : Nat)
    (h : ∀ v ∈ vs, v = "") : fieldsLenLoop vs i acc = acc := by
  induction vs generalizing i acc with
  | nil => rfl
  | cons v vs ih =>
    have hv : v = "" := h v (by simp)
    have hb : ¬byteLen v > 0 := by rw [hv]; decide
    simp only [fieldsLenLoop, if_neg hb]
    exact ih (i + 1) acc (fun w hw => h w (by simp [hw]))

/-- A state set up by setField(1, "10") and setField(2, "abc"), the example
of spec section 8 item 4. -/
def exampleState : TSState :=
  { nextWriteField := ["10", "abc", "", "", "", "", "", ""]
    nextWriteStatus := ""
    nextWriteTwitter := ""
    nextWriteTweet := ""
    nextWriteCreatedAt := ""
    lastReadStatus := 200 }

/-- The freshly initialized state (constructor, lines 65-69). -/
def emptyState : TSState :=
  { nextWriteField := List.replicate 8 ""
    nextWriteStatus := ""
    nextWriteTwitter := ""
    nextWriteTweet := ""
    nextWriteCreatedAt := ""
    lastReadStatus := 200 }

theorem contentLength_of_reset (s : TSState) :
    getWriteFieldsContentLength (resetWriteFields s) = 0 := rfl

/-- C1: for every staged buffer state (8 field slots, every staged string at
most 255 bytes) in which at least one of the 8 fields, status, twitter,
tweet or created_at holds a non-empty string, getWriteFieldsContentLength
equals the exact byte length of the body string writeFields encodes for the
same state, including the trailing "&headers=false". -/
theorem contentLength_predicts_encoded_length (s : TSState)
    (h8 : s.nextWriteField.length = 8)
    (hfb : ∀ v ∈ s.nextWriteField, byteLen v ≤ 255)
    (hsb : byteLen s.nextWriteStatus ≤ 255)
    (htwb : byteLen s.nextWriteTwitter ≤ 255)
    (htb : byteLen s.nextWriteTweet ≤ 255)
    (hcb : byteLen s.nextWriteCreatedAt ≤ 255)
    (hstaged : (∃ v ∈ s.nextWriteField, v ≠ "") ∨ s.nextWriteStatus ≠ "" ∨
      s.nextWriteTwitter ≠ "" ∨ s.nextWriteTweet ≠ "" ∨ s.nextWriteCreatedAt ≠ "") :
    getWriteFieldsContentLength s = byteLen (writeFieldsBody s) := by
  have hne := writeTerms_ne_nil s hstaged
  obtain ⟨t, ts, hts⟩ : ∃ t ts, writeTerms s = t :: ts := by
    cases h : writeTerms s with
    | nil => exact absurd h hne
    | cons t ts => exact ⟨t, ts, rfl⟩
  have hj := byteLen_joinAmp t ts
  have h14 : byteLen "&headers=false" = 14 := by decide
  rw [contentLength_eq_termsLen s h8, writeFieldsBody_eq_terms, byteLen_append, hts, h14]
  have hpos : termsLen (t :: ts) ≠ 0 := by
    simp only [termsLen]
    omega
  rw [if_neg hpos]
  omega

/-- C1 witness: the state staged by setField(1, "10") and setField(2, "abc");
both sides evaluate to 34, the byte length of
field1=10&field2=abc&headers=false. -/
theorem contentLength_predicts_encoded_length_witness :
    getWriteFieldsContentLength exampleState = byteLen (writeFieldsBody exampleState) :=
  contentLength_predicts_encoded_length exampleState rfl (by decide) (by decide)
    (by decide) (by decide) (by decide) (Or.inl ⟨"10", by decide, by decide⟩)

/-- C4: for every staged buffer state the encoded body is exactly the staged
terms - fields in ascending index order with non-empty values, then status,
twitter, tweet, created_at, values inserted verbatim with no
percent-encoding - joined by one separator before every term except the
first, followed by the unconditionally appended "&headers=false". -/
theorem encode_order_and_format (s : TSState) :
    writeFieldsBody s = joinAmp (writeTerms s) ++ "&headers=false" :=
  writeFieldsBody_eq_terms s

/-- C6: when no field, status, twitter, tweet or created_at value is staged,
getWriteFieldsContentLength returns 0 and writeFields returns
ERR_SETFIELD_NOT_CALLED (-210) with the buffer untouched and nothing handed
to the transport, whatever the transport would have answered. -/
theorem writeFields_not_staged (s : TSState)
    (hf : ∀ v ∈ s.nextWriteField, v = "")
    (hs : s.nextWriteStatus = "") (htw : s.nextWriteTwitter = "")
    (ht : s.nextWriteTweet = "") (hc : s.nextWriteCreatedAt = "") :
    getWriteFieldsContentLength s = 0 ∧
      ∀ channelNumber writeAPIKey resp,
        writeFields s channelNumber writeAPIKey resp =
          { result := some ERR_SETFIELD_NOT_CALLED, state := s, sent := none } := by
  have hb : ¬byteLen ("" : String) > 0 := by decide
  have h0 : getWriteFieldsContentLength s = 0 := by
    unfold getWriteFieldsContentLength
    rw [fieldsLenLoop_empty _ _ _ hf, hs, htw, ht, hc]
    simp only [if_neg hb]
    simp
  refine ⟨h0, fun channelNumber writeAPIKey resp => ?_⟩
  simp [writeFields, h0]

/-- C6 witness: the freshly initialized state; the write aborts with -210
and no request is made even though the mocked transport would answer 200. -/
theorem writeFields_not_staged_witness :
    getWriteFieldsContentLength emptyState = 0 ∧
      writeFields emptyState 42 "WRITEKEY" (200, "5") =
        { result := some ERR_SETFIELD_NOT_CALLED, state := emptyState, sent := none } :=
  ⟨(writeFields_not_staged emptyState (by decide) rfl rfl rfl rfl).1,
    (writeFields_not_staged emptyState (by decide) rfl rfl rfl rfl).2 42 "WRITEKEY" (200, "5")⟩

theorem resetWriteFields_idem (s : TSState) :
    resetWriteFields (resetWriteFields s) = resetWriteFields s := rfl

/-- C2 counterexample: the raw write path does not clear the staged buffer
when the transport reports 404 — the early return at line 880 of writeRaw
skips resetWriteFields — so a state staged via setField still reports a
non-zero content length after the failed raw write. -/
theorem writeRaw_404_keeps_buffer :
    (writeRaw exampleState 42 "field3=7" "WRITEKEY" (404, "")).state = exampleState ∧
      getWriteFieldsContentLength
        (writeRaw exampleState 42 "field3=7" "WRITEKEY" (404, "")).state = 34 := by
  decide

/-- C2 amended: writeFields clears the pending buffer on every exit path
after the staged-check, so a subsequent getWriteFieldsContentLength returns
0; writeRaw clears the buffer only when the transport reports status 200
and the body parses as a C++ int - it leaves the buffer untouched on any
non-200 status and also when a 200 body fails to parse (std::stoi throws
before the reset at line 897 is reached). -/
theorem write_buffer_clearing (s : TSState) (channelNumber : Nat)
    (writeAPIKey postMessage : String) (resp : Int × String) :
    (getWriteFieldsContentLength s ≠ 0 →
        (writeFields s channelNumber writeAPIKey resp).state = resetWriteFields s ∧
          getWriteFieldsContentLength
            (writeFields s channelNumber writeAPIKey resp).state = 0) ∧
      (resp.1 = OK_SUCCESS → ∀ e, stoi resp.2 = some e →
        (writeRaw s channelNumber postMessage writeAPIKey resp).state =
          resetWriteFields s) ∧
      (resp.1 = OK_SUCCESS → stoi resp.2 = none →
        (writeRaw s channelNumber postMessage writeAPIKey resp).state = s) ∧
      (resp.1 ≠ OK_SUCCESS →
        (writeRaw s channelNumber postMessage writeAPIKey resp).state = s) := by
  refine ⟨?_, ?_, ?_, ?_⟩
  · intro h
    have hres : (writeFields s channelNumber writeAPIKey resp).state =
        resetWriteFields s := by
      simp only [writeFields, if_neg h]
      by_cases hst : resp.1 ≠ OK_SUCCESS
      · simp [hst]
      · cases he : stoi resp.2 <;> simp [hst, he, resetWriteFields_idem]
    exact ⟨hres, by rw [hres]; exact contentLength_of_reset s⟩
  · intro h200 e he
    simp [writeRaw, h200, he]
  · intro h200 hnone
    simp [writeRaw, h200, hnone]
  · intro hne
    simp [writeRaw, hne]

/-- C2 amended witness: after a failed writeFields (transport 404) the
buffer is cleared and the content length is 0; writeRaw with a 200 answer
and body 5 clears the buffer; writeRaw with a 200 answer whose body
2147483648 overflows int (std::stoi throws std::out_of_range) leaves the
buffer staged. -/
theorem write_buffer_clearing_witness :
    (writeFields exampleState 42 "KEY" (404, "x")).state = resetWriteFields exampleState ∧
      getWriteFieldsContentLength (writeFields exampleState 42 "KEY" (404, "x")).state = 0 ∧
      (writeRaw exampleState 42 "field1=9" "KEY" (200, "5")).state =
        resetWriteFields exampleState ∧
      (writeRaw exampleState 42 "field1=9" "KEY" (200, "2147483648")).state =
        exampleState :=
  ⟨((write_buffer_clearing exampleState 42 "KEY" "field1=9" (404, "x")).1 (by decide)).1,
    ((write_buffer_clearing exampleState 42 "KEY" "field1=9" (404, "x")).1 (by decide)).2,
    (write_buffer_clearing exampleState 42 "KEY" "field1=9" (200, "5")).2.1 rfl 5 (by decide),
    (write_buffer_clearing exampleState 42 "KEY" "field1=9"
      (200, "2147483648")).2.2.1 rfl (by decide)⟩

/-- C3: response interpretation shared by writeFields (with something
staged, so the transport is reached) and writeRaw: a non-200 status is
returned verbatim; a 200 status whose body parses to entry ID 0 yields
ERR_NOT_INSERTED (-401); a 200 status with a non-zero entry ID yields
200. -/
theorem write_response_interpretation (s : TSState) (channelNumber : Nat)
    (writeAPIKey postMessage : String) (resp : Int × String)
    (hstaged : getWriteFieldsContentLength s ≠ 0) :
    (resp.1 ≠ OK_SUCCESS →
        (writeFields s channelNumber writeAPIKey resp).result = some resp.1 ∧
          (writeRaw s channelNumber postMessage writeAPIKey resp).result = some resp.1) ∧
      (resp.1 = OK_SUCCESS → stoi resp.2 = some 0 →
        (writeFields s channelNumber writeAPIKey resp).result = some ERR_NOT_INSERTED ∧
          (writeRaw s channelNumber postMessage writeAPIKey resp).result =
            some ERR_NOT_INSERTED) ∧
      (resp.1 = OK_SUCCESS → ∀ e, stoi resp.2 = some e → e ≠ 0 →
        (writeFields s channelNumber writeAPIKey resp).result = some OK_SUCCESS ∧
          (writeRaw s channelNumber postMessage writeAPIKey resp).result =
            some OK_SUCCESS) := by
  refine ⟨?_, ?_, ?_⟩
  · intro h
    constructor
    · simp [writeFields, hstaged, h]
    · simp [writeRaw, h]
  · intro h he
    constructor
    · simp [writeFields, hstaged, h, he]
    · simp [writeRaw, h, he]
  · intro h e he hne
    constructor
    · simp [writeFields, hstaged, h, he, hne]
    · simp [writeRaw, h, he, hne]

/-- C3 witness: spec section 8 items 6 and 7 on both write paths: status 404
is returned verbatim, body 0 yields -401, body 12345 yields 200. -/
theorem write_response_interpretation_witness :
    (writeFields exampleState 42 "KEY" (404, "")).result = some 404 ∧
      (writeFields exampleState 42 "KEY" (200, "0")).result = some ERR_NOT_INSERTED ∧
      (writeFields exampleState 42 "KEY" (200, "12345")).result = some OK_SUCCESS ∧
      (writeRaw exampleState 42 "field1=9" "KEY" (404, "")).result = some 404 ∧
      (writeRaw exampleState 42 "field1=9" "KEY" (200, "0")).result =
        some ERR_NOT_INSERTED ∧
      (writeRaw exampleState 42 "field1=9" "KEY" (200, "12345")).result =
        some OK_SUCCESS :=
  ⟨((write_response_interpretation exampleState 42 "KEY" "field1=9" (404, "")
      (by decide)).1 (by decide)).1,
    ((write_response_interpretation exampleState 42 "KEY" "field1=9" (200, "0")
      (by decide)).2.1 rfl (by decide)).1,
    ((write_response_interpretation exampleState 42 "KEY" "field1=9" (200, "12345")
      (by decide)).2.2 rfl 12345 (by decide) (by decide)).1,
    ((write_response_interpretation exampleState 42 "KEY" "field1=9" (404, "")
      (by decide)).1 (by decide)).2,
    ((write_response_interpretation exampleState 42 "KEY" "field1=9" (200, "0")
      (by decide)).2.1 rfl (by decide)).2,
    ((write_response_interpretation exampleState 42 "KEY" "field1=9" (200, "12345")
      (by decide)).2.2 rfl 12345 (by decide) (by decide)).2⟩

/-- C5: setField returns ERR_INVALID_FIELD_NUM (-201) for a field index
outside [1,8] and ERR_OUT_OF_RANGE (-101) for a value longer than 255
bytes, leaving the whole state unchanged in both cases; for a valid index
and length it stores the value at slot field-1 (overwriting that slot,
leaving every other slot and every other member unchanged) and returns
200. -/
theorem setField_validation (s : TSState) (field : Nat) (value : String)
    (h8 : s.nextWriteField.length = 8) :
    ((field < 1 ∨ field > 8) → setField s field value = (ERR_INVALID_FIELD_NUM, s)) ∧
      (1 ≤ field → field ≤ 8 → byteLen value > 255 →
        setField s field value = (ERR_OUT_OF_RANGE, s)) ∧
      (1 ≤ field → field ≤ 8 → byteLen value ≤ 255 →
        (setField s field value).1 = OK_SUCCESS ∧
          (setField s field value).2.nextWriteField =
            s.nextWriteField.set (field - 1) value ∧
          (setField s field value).2.nextWriteField[field - 1]? = some value ∧
          (∀ j, j ≠ field - 1 →
            (setField s field value).2.nextWriteField[j]? = s.nextWriteField[j]?) ∧
          (setField s field value).2.nextWriteStatus = s.nextWriteStatus ∧
          (setField s field value).2.nextWriteTwitter = s.nextWriteTwitter ∧
          (setField s field value).2.nextWriteTweet = s.nextWriteTweet ∧
          (setField s field value).2.nextWriteCreatedAt = s.nextWriteCreatedAt ∧
          (setField s field value).2.lastReadStatus = s.lastReadStatus) := by
  refine ⟨?_, ?_, ?_⟩
  · intro h
    simp only [setField, FIELDNUM_MIN, FIELDNUM_MAX]
    rw [if_pos h]
  · intro h1 h2 hlen
    simp only [setField, FIELDNUM_MIN, FIELDNUM_MAX, FIELDLENGTH_MAX]
    rw [if_neg (by omega), if_pos hlen]
  · intro h1 h2 hlen
    simp only [setField, FIELDNUM_MIN, FIELDNUM_MAX, FIELDLENGTH_MAX]
    rw [if_neg (by omega), if_neg (by omega)]
    refine ⟨rfl, rfl, ?_, ?_, rfl, rfl, rfl, rfl, rfl⟩
    · rw [List.getElem?_set, if_pos rfl, if_pos (by rw [h8]; omega)]
    · intro j hj
      rw [List.getElem?_set, if_neg (fun he => hj he.symm)]

/-- C5 witness: index 9 is rejected with -201 and the state kept; a 256-byte
value is rejected with -101 and the state kept; setField(3, "xyz") succeeds
with 200 and stores "xyz" at slot 2. -/
theorem setField_validation_witness :
    setField exampleState 9 "x" = (ERR_INVALID_FIELD_NUM, exampleState) ∧
      setField exampleState 1 (String.mk (List.replicate 256 'a')) =
        (ERR_OUT_OF_RANGE, exampleState) ∧
      (setField exampleState 3 "xyz").1 = OK_SUCCESS ∧
      (setField exampleState 3 "xyz").2.nextWriteField =
        exampleState.nextWriteField.set 2 "xyz" :=
  ⟨(setField_validation exampleState 9 "x" (by decide)).1 (by omega),
    (setField_validation exampleState 1 (String.mk (List.replicate 256 'a'))
      (by decide)).2.1 (by omega) (by omega) (by decide),
    ((setField_validation exampleState 3 "xyz" (by decide)).2.2 (by omega) (by omega)
      (by decide)).1,
    ((setField_validation exampleState 3 "xyz" (by decide)).2.2 (by omega) (by omega)
      (by decide)).2.1⟩

/-- C7 counterexample: the raw write path does clear the staged pending
buffer when the transport answers 200 with a parseable body
(resetWriteFields at line 897), so the staged field values are not the same
after writeRaw returns. -/
theorem writeRaw_200_clears_buffer :
    (writeRaw exampleState 42 "a=b" "KEY" (200, "5")).state ≠ exampleState ∧
      (writeRaw exampleState 42 "a=b" "KEY" (200, "5")).state.nextWriteField =
        List.replicate 8 "" := by
  decide

/-- C7 amended: writeRaw appends "&headers=false" to the caller-supplied
body and never reads the staged buffer (the request body is determined by
postMessage alone), and it leaves the staged buffer unchanged when the
transport status is not 200 or the body does not parse — but it resets the
buffer when the status is 200 and the body parses. -/
theorem writeRaw_frame (s : TSState) (channelNumber : Nat)
    (postMessage writeAPIKey : String) (resp : Int × String) :
    (writeRaw s channelNumber postMessage writeAPIKey resp).sent =
        some (postMessage ++ "&headers=false") ∧
      (resp.1 ≠ OK_SUCCESS →
        (writeRaw s channelNumber postMessage writeAPIKey resp).state = s) ∧
      (resp.1 = OK_SUCCESS → stoi resp.2 = none →
        (writeRaw s channelNumber postMessage writeAPIKey resp).state = s) ∧
      (resp.1 = OK_SUCCESS → ∀ e, stoi resp.2 = some e →
        (writeRaw s channelNumber postMessage writeAPIKey resp).state =
          resetWriteFields s) := by
  refine ⟨?_, ?_, ?_, ?_⟩
  · by_cases h : resp.1 ≠ OK_SUCCESS
    · simp [writeRaw, h]
    · cases he : stoi resp.2 <;> simp [writeRaw, h, he]
  · intro h
    simp [writeRaw, h]
  · intro h he
    simp [writeRaw, h, he]
  · intro h e he
    simp [writeRaw, h, he]

/-- C7 amended witness: the raw body is postMessage plus "&headers=false";
a 404 answer leaves the staged state untouched while a 200 answer with body
5 resets it. -/
theorem writeRaw_frame_witness :
    (writeRaw exampleState 42 "field1=9" "KEY" (404, "")).sent =
        some ("field1=9" ++ "&headers=false") ∧
      (writeRaw exampleState 42 "field1=9" "KEY" (404, "")).state = exampleState ∧
      (writeRaw exampleState 42 "field1=9" "KEY" (200, "5")).state =
        resetWriteFields exampleState :=
  ⟨(writeRaw_frame exampleState 42 "field1=9" "KEY" (404, "")).1,
    (writeRaw_frame exampleState 42 "field1=9" "KEY" (404, "")).2.1 (by decide),
    (writeRaw_frame exampleState 42 "field1=9" "KEY" (200, "5")).2.2.2 rfl 5 (by decide)⟩

/-- C9: readRaw stores the transport's HTTP status code into lastReadStatus;
on a non-200 status it returns the empty string; the response body text is
returned exactly when the stored status is 200. -/
theorem readRaw_status_handling (s : TSState) (channelNumber : Nat)
    (URLSuffix : String) (readAPIKey : Option String) (resp : Int × String) :
    (readRaw s channelNumber URLSuffix readAPIKey resp).state.lastReadStatus = resp.1 ∧
      (resp.1 ≠ OK_SUCCESS →
        (readRaw s channelNumber URLSuffix readAPIKey resp).ret = "") ∧
      (resp.1 = OK_SUCCESS →
        (readRaw s channelNumber URLSuffix readAPIKey resp).ret = resp.2) := by
  refine ⟨?_, ?_, ?_⟩
  · by_cases h : resp.1 ≠ OK_SUCCESS <;> simp [readRaw, h]
  · intro h
    simp [readRaw, h]
  · intro h
    simp [readRaw, h]

/-- C9 witness: a 404 answer is stored in lastReadStatus and the returned
text is empty; a 200 answer returns the body. -/
theorem readRaw_status_handling_witness :
    (readRaw emptyState 7 "/feeds/last.txt" none (404, "body")).state.lastReadStatus = 404 ∧
      (readRaw emptyState 7 "/feeds/last.txt" none (404, "body")).ret = "" ∧
      (readRaw emptyState 7 "/feeds/last.txt" none (200, "body")).ret = "body" :=
  ⟨(readRaw_status_handling emptyState 7 "/feeds/last.txt" none (404, "body")).1,
    (readRaw_status_handling emptyState 7 "/feeds/last.txt" none (404, "body")).2.1
      (by decide),
    (readRaw_status_handling emptyState 7 "/feeds/last.txt" none (200, "body")).2.2 rfl⟩

/-- C10: readStringField with a field index outside [1,8] sets
lastReadStatus to ERR_INVALID_FIELD_NUM (-201), returns the empty string,
performs no request, and a subsequent getLastReadStatus returns -201. -/
theorem readStringField_invalid_field (s : TSState) (channelNumber field : Nat)
    (readAPIKey : Option String) (resp : Int × String)
    (h : field < 1 ∨ field > 8) :
    (readStringField s channelNumber field readAPIKey resp).ret = "" ∧
      (readStringField s channelNumber field readAPIKey resp).request = none ∧
      (readStringField s channelNumber field readAPIKey resp).state.lastReadStatus =
        ERR_INVALID_FIELD_NUM ∧
      getLastReadStatus (readStringField s channelNumber field readAPIKey resp).state =
        ERR_INVALID_FIELD_NUM := by
  simp only [readStringField]
  rw [if_pos (show field < FIELDNUM_MIN ∨ field > FIELDNUM_MAX from h)]
  exact ⟨rfl, rfl, rfl, rfl⟩

/-- C10 witness: field 0 with a transport that would have answered 200. -/
theorem readStringField_invalid_field_witness :
    (readStringField emptyState 7 0 none (200, "z")).ret = "" ∧
      (readStringField emptyState 7 0 none (200, "z")).request = none ∧
      (readStringField emptyState 7 0 none (200, "z")).state.lastReadStatus =
        ERR_INVALID_FIELD_NUM ∧
      getLastReadStatus (readStringField emptyState 7 0 none (200, "z")).state =
        ERR_INVALID_FIELD_NUM :=
  readStringField_invalid_field emptyState 7 0 none (200, "z") (Or.inl (by omega))

/-- The literal search pattern of getJSONValueByKey for a given key. -/
def jsonPhrase (key : String) : List Char :=
  ("\"" ++ key ++ "\":\"").data

theorem listPre_nil_right (p : List Char) (h : listPre p [] = true) : p = [] := by
  cases p with
  | nil => rfl
  | cons c cs => simp [listPre] at h

theorem jsonPhrase_ne_nil (key : String) : jsonPhrase key ≠ [] := by
  intro h
  rw [jsonPhrase, String.data_append] at h
  obtain ⟨h1, h2⟩ := List.append_eq_nil.1 h
  exact absurd h2 (by decide)

theorem findSub_eq_none (hay p : List Char)
    (h : ∀ i, ¬listPre p (hay.drop i) = true) : findSub hay p = none := by
  induction hay with
  | nil =>
    have h0 := h 0
    rw [List.drop_zero] at h0
    simp [findSub, h0]
  | cons c t ih =>
    have h0 := h 0
    rw [List.drop_zero] at h0
    have hrec : ∀ i, ¬listPre p (t.drop i) = true := fun i => by
      have := h (i + 1)
      rwa [List.drop_succ_cons] at this
    simp [findSub, h0, ih hrec]

theorem findSub_eq_some (hay p : List Char) (i : Nat)
    (hocc : listPre p (hay.drop i) = true)
    (hmin : ∀ j, j < i → ¬listPre p (hay.drop j) = true) :
    findSub hay p = some i := by
  induction hay generalizing i with
  | nil =>
    have hdrop : ([] : List Char).drop i = [] := by simp
    rw [hdrop] at hocc
    cases i with
    | zero => simp [findSub, hocc]
    | succ n =>
      exfalso
      have h0 := hmin 0 (by omega)
      rw [List.drop_zero] at h0
      exact h0 hocc
  | cons c t ih =>
    cases i with
    | zero =>
      rw [List.drop_zero] at hocc
      simp [findSub, hocc]
    | succ n =>
      have h0 := hmin 0 (by omega)
      rw [List.drop_zero] at h0
      have hocc2 : listPre p (t.drop n) = true := by
        rwa [List.drop_succ_cons] at hocc
      have hmin2 : ∀ j, j < n → ¬listPre p (t.drop j) = true := fun j hj => by
        have := hmin (j + 1) (by omega)
        rwa [List.drop_succ_cons] at this
      simp [findSub, h0, ih n hocc2 hmin2]

theorem listPre_all_of_bounded (t p : List Char) (hp : p ≠ [])
    (h : ∀ i, i < t.length → ¬listPre p (t.drop i) = true) :
    ∀ i, ¬listPre p (t.drop i) = true := by
  intro i
  by_cases hi : i < t.length
  · exact h i hi
  · have hdrop : t.drop i = [] := List.drop_eq_nil_of_le (by omega)
    rw [hdrop]
    intro hc
    exact hp (listPre_nil_right p hc)

theorem getJSONValueByKey_eq (text key : String) (h : ¬text.data.length = 0) :
    getJSONValueByKey text key =
      match findSub text.data (jsonPhrase key) with
      | none => ""
      | some pos =>
        match findSub (text.data.drop (pos + (jsonPhrase key).length)) ['\"'] with
        | none => ""
        | some d =>
          String.mk ((text.data.take (pos + (jsonPhrase key).length + d)).drop
            (pos + (jsonPhrase key).length)) := by
  unfold getJSONValueByKey
  rw [if_neg h]
  rfl

/-- C8: getJSONValueByKey returns the substring of the text strictly between
the first occurrence of the literal pattern "key":" and the next double
quote after it; it returns the empty string when the text is empty, when
the pattern does not occur, or when no closing quote follows the pattern.
Occurrence at position i is expressed as the pattern being a prefix of the
text dropped at i. -/
theorem getJSONValueByKey_spec (text key : String) :
    (text = "" → getJSONValueByKey text key = "") ∧
      ((∀ i, ¬listPre (jsonPhrase key) (text.data.drop i) = true) →
        getJSONValueByKey text key = "") ∧
      (∀ i, listPre (jsonPhrase key) (text.data.drop i) = true →
        (∀ j, j < i → ¬listPre (jsonPhrase key) (text.data.drop j) = true) →
        ((∀ d, ¬listPre ['\"']
            ((text.data.drop (i + (jsonPhrase key).length)).drop d) = true) →
          getJSONValueByKey text key = "") ∧
        (∀ d, listPre ['\"']
            ((text.data.drop (i + (jsonPhrase key).length)).drop d) = true →
          (∀ e, e < d → ¬listPre ['\"']
            ((text.data.drop (i + (jsonPhrase key).length)).drop e) = true) →
          getJSONValueByKey text key =
            String.mk ((text.data.take (i + (jsonPhrase key).length + d)).drop
              (i + (jsonPhrase key).length)))) := by
  refine ⟨?_, ?_, ?_⟩
  · intro h
    subst h
    rfl
  · intro h
    by_cases ht : text.data.length = 0
    · unfold getJSONValueByKey
      rw [if_pos ht]
    · rw [getJSONValueByKey_eq text key ht]
      simp only [findSub_eq_none _ _ h]
  · intro i hocc hmin
    have htext : ¬text.data.length = 0 := by
      intro h0
      have hnil : text.data = [] := List.length_eq_zero.1 h0
      rw [hnil, List.drop_nil] at hocc
      exact jsonPhrase_ne_nil key (listPre_nil_right _ hocc)
    have hfind : findSub text.data (jsonPhrase key) = some i :=
      findSub_eq_some _ _ i hocc hmin
    constructor
    · intro hnone
      have hfind2 : findSub (text.data.drop (i + (jsonPhrase key).length)) ['\"'] =
          none := findSub_eq_none _ _ hnone
      rw [getJSONValueByKey_eq text key htext]
      simp only [hfind, hfind2]
    · intro d hoccd hmind
      have hfind2 : findSub (text.data.drop (i + (jsonPhrase key).length)) ['\"'] =
          some d := findSub_eq_some _ _ d hoccd hmind
      rw [getJSONValueByKey_eq text key htext]
      simp only [hfind, hfind2]

/-- C8 witness: the spec section 8 item 8 examples: key status extracted
from a small JSON object yields ok; a missing key yields the empty string;
an unterminated value yields the empty string; empty text yields the empty
string. -/
theorem getJSONValueByKey_spec_witness :
    getJSONValueByKey "\x7b\"status\":\"ok\",\"x\":\"y\"\x7d" "status" = "ok" ∧
      getJSONValueByKey "\x7b\"other\":\"ok\"\x7d" "status" = "" ∧
      getJSONValueByKey "\"status\":\"ok" "status" = "" ∧
      getJSONValueByKey "" "status" = "" :=
  ⟨(((getJSONValueByKey_spec "\x7b\"status\":\"ok\",\"x\":\"y\"\x7d" "status").2.2 1
      (by decide) (by decide)).2 2 (by decide) (by decide)).trans (by decide),
    (getJSONValueByKey_spec "\x7b\"other\":\"ok\"\x7d" "status").2.1
      (listPre_all_of_bounded _ _ (jsonPhrase_ne_nil "status") (by decide)),
    ((getJSONValueByKey_spec "\"status\":\"ok" "status").2.2 0 (by decide) (by decide)).1
      (listPre_all_of_bounded _ _ (by decide) (by decide)),
    (getJSONValueByKey_spec "" "status").1 rfl⟩
